import Mathlib

/-!
Verification of the baseline JPEG decoder core (bit reader, Huffman codebook,
segment parser, entropy decoder, reconstruction numerics) against its
natural-language specification.  All definitions are shallow embeddings of the
C++ sources; bytes are modelled as `Nat`, machine integers as `Nat`/`Int` with
explicit reductions modulo `2^w` where the C++ type wraps.
-/

namespace Jpeg

/-- Error kind: one tagged error per `throw` site in the sources. -/
inductive Err where
  | eof            -- "EOF" in BitReader::ReadBits
  | marker         -- "Encountered marker instead of 0xFF"
  | tooManyBits    -- "Trying to read many bytes"
  | notAligned     -- "Bits not aligned"
  | nullState      -- "State is nullptr" in HuffmanTree::Move
  | emptyAc        -- "Empty ac coef"
  | blockOverrun   -- "Too many blocks in matrix"
  | badZigZag      -- "Bad block size for zig-zag"
  | smallSection   -- "Too little comment section size"
  | badMetaSize    -- "Too little image metadata size" / "Bad metadata size"
  | emptyImage     -- "Empty image"
  | channelsSize   -- "Channels size" in the ImageMetadata constructor
  | badSOS         -- "Inconsistent SOS for baseline JPEG" and SOS size errors
  | noHuffTable    -- "No huffman table found"
  | zeroSampling   -- "sampling factor is zero"
  | noChannelMeta  -- "No meta for channel"
  | sizeMismatch   -- "Cannot multiply on quantum matrix"
  | smallLenSum    -- "Too small code lengths sum" in HuffmanTree::Build
  | bigCodeLen     -- "Too big code length"
  | nodeAdd        -- "Something went wrong in node adding"
  | bigLenSum      -- "Too big code length sum"
  | oobRead        -- out-of-bounds vector read (undefined behaviour in C++)
deriving DecidableEq, Repr

/-- State of `BitReader` (faster/decoder.cpp): the remaining byte stream, the
8-bit holding buffer `buffer_` and the bit count `buffer_size_`. -/
structure BState where
  stream : List Nat
  buffer : Nat
  bufferSize : Nat
deriving DecidableEq, Repr

/-- The refill step inside `BitReader::ReadBits` (faster/decoder.cpp:204-223):
read one byte into the holding buffer; if it is `0xFF`, one further byte is
consumed and must be `0x00`, otherwise (or when the stream ends) a marker error
is thrown. -/
def refill (st : BState) : Except Err BState :=
  match st.stream with
  | [] => .error .eof
  | b :: rest =>
    let b := b % 256
    if b = 0xff then
      match rest with
      | [] => .error .marker
      | c :: rest2 => if c % 256 = 0 then .ok ⟨rest2, b, 8⟩ else .error .marker
    else .ok ⟨rest, b, 8⟩

/-- The `while (bits_cnt-- > 0)` loop of `BitReader::ReadBits`: per iteration,
refill if the buffer is empty, then shift the buffer's top bit into the 16-bit
result. -/
def readBitsLoop : Nat → Nat → BState → Except Err (Nat × BState)
  | 0, result, st => .ok (result, st)
  | n + 1, result, st =>
    match (if st.bufferSize = 0 then refill st else .ok st) with
    | .error e => .error e
    | .ok st1 =>
      readBitsLoop n ((result * 2 + st1.buffer / 128 % 2) % 65536)
        ⟨st1.stream, st1.buffer * 2 % 256, st1.bufferSize - 1⟩

/-- `BitReader::ReadBits` (faster/decoder.cpp:195-230): at most 16 bits may be
requested. -/
def ReadBits (bitsCnt : Nat) (st : BState) : Except Err (Nat × BState) :=
  if bitsCnt > 16 then .error .tooManyBits else readBitsLoop bitsCnt 0 st

/-- Reference bit source, modelled from the spec's words for the refinement
comparison: an ideal refill with no byte-stuffing handling. -/
def refillPlain (st : BState) : Except Err BState :=
  match st.stream with
  | [] => .error .eof
  | b :: rest => .ok ⟨rest, b % 256, 8⟩

/-- Reference bit-reading loop over `refillPlain` (spec-modelled). -/
def readBitsLoopPlain : Nat → Nat → BState → Except Err (Nat × BState)
  | 0, result, st => .ok (result, st)
  | n + 1, result, st =>
    match (if st.bufferSize = 0 then refillPlain st else .ok st) with
    | .error e => .error e
    | .ok st1 =>
      readBitsLoopPlain n ((result * 2 + st1.buffer / 128 % 2) % 65536)
        ⟨st1.stream, st1.buffer * 2 % 256, st1.bufferSize - 1⟩

/-- Reference `read_bits` over the ideal bit source (spec-modelled). -/
def ReadBitsPlain (bitsCnt : Nat) (st : BState) : Except Err (Nat × BState) :=
  if bitsCnt > 16 then .error .tooManyBits else readBitsLoopPlain bitsCnt 0 st

/-- Reduction of an integer into `int16_t` (two's complement). -/
def toInt16 (z : ℤ) : ℤ := (z + 32768) % 65536 - 32768

/-- `BitReader::ReadBitsSigned` (faster/decoder.cpp:232-244): 0 bits give 0;
otherwise JPEG signed extension, with the `static_cast<int16_t>` reductions. -/
def ReadBitsSigned (bitsCnt : Nat) (st : BState) : Except Err (ℤ × BState) :=
  if bitsCnt = 0 then .ok (0, st)
  else
    match ReadBits bitsCnt st with
    | .error e => .error e
    | .ok (v, st') =>
      if v / 2 ^ (bitsCnt - 1) % 2 = 1 then .ok (toInt16 v, st')
      else .ok (toInt16 ((v : ℤ) - (2 ^ bitsCnt - 1)), st')

/-- Stands for the indeterminate value of the local `char data` in
`BitReader::ReadByte` when `in_.read` fails at end of stream: the C++ does not
test the stream state and returns the uninitialized byte. -/
def junkByte : Nat := 0

/-- `BitReader::ReadByte` (faster/decoder.cpp:246-255): fails when bits remain
buffered; otherwise returns one raw byte.  Note that the stream state is NOT
checked after `in_.read`: at end of stream the indeterminate `data` is
returned as a value. -/
def ReadByte (st : BState) : Except Err (Nat × BState) :=
  if st.bufferSize ≠ 0 then .error .notAligned
  else
    match st.stream with
    | [] => .ok (junkByte, st)
    | b :: rest => .ok (b % 256, ⟨rest, st.buffer, st.bufferSize⟩)

/-- `BitReader::ReadWord` (faster/decoder.cpp:257-263): two bytes, big-endian. -/
def ReadWord (st : BState) : Except Err (Nat × BState) :=
  match ReadByte st with
  | .error e => .error e
  | .ok (b1, st1) =>
    match ReadByte st1 with
    | .error e => .error e
    | .ok (b2, st2) => .ok (b1 * 256 + b2, st2)

/-- `BitReader::Align` (faster/decoder.cpp:265-268). -/
def Align (st : BState) : BState := ⟨st.stream, 0, 0⟩

/-- Byte-stuffing removal over a whole payload: each `FF` must be followed by a
`00`, which is dropped; an `FF` followed by anything else (or ending the
payload) has no destuffed form. -/
def destuff : List Nat → Option (List Nat)
  | [] => some []
  | b :: rest =>
    if b % 256 = 0xff then
      match rest with
      | c :: rest2 =>
        if c % 256 = 0 then (destuff rest2).map (b :: ·) else none
      | [] => none
    else (destuff rest).map (b :: ·)

/-- Outcome comparison for the stuffed reader against the plain reference
reader: identical errors, or identical values and holding buffers with the
stuffed remaining stream destuffing to the plain one. -/
def sameOutcome : Except Err (Nat × BState) → Except Err (Nat × BState) → Bool
  | .error e, .error e' => e = e'
  | .ok (v, st), .ok (v', st') =>
    v = v' ∧ st.buffer = st'.buffer ∧ st.bufferSize = st'.bufferSize ∧
      destuff st.stream = some st'.stream
  | _, _ => false

end Jpeg

namespace Jpeg

/-- Decidable equality of outcomes, used to evaluate the model on concrete
inputs. -/
instance {ε α : Type} [DecidableEq ε] [DecidableEq α] : DecidableEq (Except ε α) := fun x y =>
  match x, y with
  | .error a, .error b =>
    if h : a = b then .isTrue (by rw [h]) else .isFalse (by intro hc; cases hc; exact h rfl)
  | .ok a, .ok b =>
    if h : a = b then .isTrue (by rw [h]) else .isFalse (by intro hc; cases hc; exact h rfl)
  | .error _, .ok _ => .isFalse (by intro hc; cases hc)
  | .ok _, .error _ => .isFalse (by intro hc; cases hc)

/-- A node of `HuffmanTree` (huffman/huffman.cpp): terminal nodes carry a
symbol value; inner nodes have optional left/right children (a terminal node's
child pointers are null). -/
inductive HNode where
  | term (v : Nat)
  | inner (l r : Option HNode)

/-- `HuffmanTree::Impl::AddNodeImpl` (huffman/huffman.cpp:54-83): place a value
as a leaf at the given depth, preferring the left subtree; `none` when no slot
is free (the C++ returns `false` without observably mutating the tree, since an
insertion into a freshly created empty child always succeeds). -/
def addNode : Nat → Nat → HNode → Option HNode
  | _, _, .term _ => none
  | 0, _, .inner _ _ => none
  | 1, v, .inner l r =>
    match l with
    | none => some (.inner (some (.term v)) r)
    | some _ =>
      match r with
      | none => some (.inner l (some (.term v)))
      | some _ => none
  | n + 2, v, .inner l r =>
    match addNode (n + 1) v (l.getD (.inner none none)) with
    | some l' => some (.inner (some l') r)
    | none =>
      match addNode (n + 1) v (r.getD (.inner none none)) with
      | some r' => some (.inner l (some r'))
      | none => none

/-- The depth-skipping `while` loop of `HuffmanTree::Build`
(huffman/huffman.cpp:95-97) walked along the suffix of `code_lengths_new`
that starts at index `now_length - 1`: its condition evaluates
`code_lengths_new[now_length - 1]` BEFORE testing `now_length <= size`, so an
out-of-bounds index — reaching the end of the vector — is modelled as `none`
(the C++ read is undefined behaviour).  `len` is the fixed
`code_lengths.size()`. -/
def skipGo (len : Nat) : List Nat → Nat → Option Nat
  | [], _ => none
  | x :: rest, now => if x = 0 ∧ now ≤ len then skipGo len rest (now + 1) else some now

/-- The depth-skipping loop at entry: the suffix view of the successive reads
`code_lengths_new[now_length - 1]`, `code_lengths_new[now_length]`, ... -/
def skipZeroLengths (cl : List Nat) (nowLength : Nat) : Option Nat :=
  skipGo cl.length (cl.drop (nowLength - 1)) nowLength

/-- The per-value loop of `HuffmanTree::Build` (huffman/huffman.cpp:94-108):
skip exhausted depths, validate, decrement the quota and add the leaf. -/
def buildLoop : List Nat → List Nat → Nat → HNode → Except Err (HNode × List Nat)
  | [], clNew, _, tree => .ok (tree, clNew)
  | v :: values, clNew, nowLength, tree =>
    match skipZeroLengths clNew nowLength with
    | none => .error .oobRead
    | some nl =>
      if nl > clNew.length then .error .smallLenSum
      else if nl > 16 then .error .bigCodeLen
      else
        match addNode nl v tree with
        | none => .error .nodeAdd
        | some tree' =>
          buildLoop values (clNew.set (nl - 1) (clNew.getD (nl - 1) 0 - 1)) nl tree'

/-- `HuffmanTree::Build` (huffman/huffman.cpp:89-113): reset to a fresh root,
place every value, and require zero residual quota. -/
def Build (codeLengths values : List Nat) : Except Err HNode :=
  match buildLoop values codeLengths 1 (.inner none none) with
  | .error e => .error e
  | .ok (tree, clNew) => if 0 < clNew.sum then .error .bigLenSum else .ok tree

/-- The body of `Parser::ReadFromHuffmanTree`'s loop (part_001:172-177) once
`HuffmanTree::Move` has left a null state: the next iteration reads one more
bit and then `Move` throws `State is nullptr`. -/
def nullStateNext (st : BState) : Except Err (Nat × BState) :=
  match ReadBits 1 st with
  | .error e => .error e
  | .ok _ => .error .nullState

/-- `Parser::ReadFromHuffmanTree` (part_001:172-177) driving
`HuffmanTree::Move` (huffman/huffman.cpp:19-38): walk one bit per `ReadBits()`
call from the current node; emit the value at a terminal, recurse at an inner
node.  A terminal start node behaves as a node with null children. -/
def readSymbolGo : HNode → BState → Except Err (Nat × BState)
  | .term _, st =>
    match ReadBits 1 st with
    | .error e => .error e
    | .ok (_, st1) => nullStateNext st1
  | .inner l r, st =>
    match ReadBits 1 st with
    | .error e => .error e
    | .ok (bit, st1) =>
      if bit = 0 then
        match l with
        | none => nullStateNext st1
        | some (.term v) => .ok (v, st1)
        | some (.inner l' r') => readSymbolGo (.inner l' r') st1
      else
        match r with
        | none => nullStateNext st1
        | some (.term v) => .ok (v, st1)
        | some (.inner l' r') => readSymbolGo (.inner l' r') st1

/-- `Parser::ReadFromHuffmanTree`: decode one symbol starting at the root. -/
def ReadFromHuffmanTree (tree : HNode) (st : BState) : Except Err (Nat × BState) :=
  readSymbolGo tree st

/-- The zig-zag permutation table `kZigZagMap` (part_001:27-30). -/
def kZigZagMap : List Nat :=
  [0, 1, 5, 6, 14, 15, 27, 28, 2, 4, 7, 13, 16, 26, 29, 42, 3, 8, 12, 17, 25, 30,
   41, 43, 9, 11, 18, 24, 31, 40, 44, 53, 10, 19, 23, 32, 39, 45, 52, 54, 20, 22, 33, 38,
   46, 51, 55, 60, 21, 34, 37, 47, 50, 56, 59, 61, 35, 36, 48, 49, 57, 58, 62, 63]

/-- `GetZigZag` (part_001:20-37): `ans[i] = data[kZigZagMap[i]]` after a length
check. -/
def GetZigZag (data : List ℤ) : Except Err (List ℤ) :=
  if data.length ≠ 64 then .error .badZigZag
  else .ok (kZigZagMap.map fun j => data.getD j 0)

/-- The AC `while (matrix.size() < kBlockSz)` loop of `Parser::ReadBlock`
(part_001:192-210): EOB fills with zeros (`resize`), `0xF0` emits 16 zeros,
a zero size with a zero run (other than 15) is fatal.  Every iteration
appends at least one coefficient, so the loop runs at most 64 times; the
fuel parameter (64 at the call site, one more than the at most 63 possible
iterations from a one-element matrix) only bounds that recursion and is
never exhausted. -/
def acLoop (ac : HNode) : Nat → List ℤ → BState → Except Err (List ℤ × BState)
  | 0, matrix, st => .ok (matrix, st)
  | fuel + 1, matrix, st =>
    if matrix.length < 64 then
      match ReadFromHuffmanTree ac st with
      | .error e => .error e
      | .ok (mask, st1) =>
        if mask = 0 then .ok (matrix ++ List.replicate (64 - matrix.length) 0, st1)
        else
          let zerosCnt := mask / 16
          let acSz := mask % 16
          if acSz ≠ 0 ∨ zerosCnt = 15 then
            match ReadBitsSigned acSz st1 with
            | .error e => .error e
            | .ok (coef, st2) =>
              acLoop ac fuel ((matrix ++ List.replicate zerosCnt 0) ++ [coef]) st2
          else .error .emptyAc
    else .ok (matrix, st)

/-- `Parser::ReadBlock` (part_001:179-218): DC differential with per-channel
`int16_t` predictor, AC run-length loop, final size check and zig-zag
inversion.  Returns the raster-order block, the updated predictor and the bit
state. -/
def ReadBlock (dcTree acTree : HNode) (prevDc : ℤ) (st : BState) :
    Except Err (List ℤ × ℤ × BState) :=
  match ReadFromHuffmanTree dcTree st with
  | .error e => .error e
  | .ok (dcSz, st1) =>
    match (if dcSz = 0 then .ok (prevDc, st1)
           else
             match ReadBitsSigned dcSz st1 with
             | .error e => .error e
             | .ok (diff, st2) => .ok (toInt16 (prevDc + diff), st2) :
          Except Err (ℤ × BState)) with
    | .error e => .error e
    | .ok (newDc, st2) =>
      match acLoop acTree 64 [newDc] st2 with
      | .error e => .error e
      | .ok (matrix, st3) =>
        if matrix.length ≠ 64 then .error .blockOverrun
        else
          match GetZigZag matrix with
          | .error e => .error e
          | .ok zz => .ok (zz, newDc, st3)

/-- DC codebook with the single symbol 12 at depth 1 (`L = [1,0,...,0]`,
values `[12]`). -/
def dcTree12 : HNode := .inner (some (.term 12)) none

/-- AC codebook with the single symbol 0 (EOB) at depth 1. -/
def acTreeEOB : HNode := .inner (some (.term 0)) none

/-- DC codebook with the single symbol 17 at depth 1. -/
def dcTree17 : HNode := .inner (some (.term 17)) none

/-- `Mult` (baseline/decoder.cpp:8-18, faster/decoder.cpp:8-17): elementwise
product of the coefficient block by the quantization table after a length
check; `one[i] *= two[i]` multiplies in `int` and the assignment narrows into
`int16_t` (two's complement). -/
def Mult (one two : List ℤ) : Except Err (List ℤ) :=
  if one.length ≠ two.length then .error .sizeMismatch
  else .ok (List.zipWith (fun a b => toInt16 (a * b)) one two)

/-- The clamp helper of the fixed-point `YCbCrToRGB`
(faster/decoder.cpp:33-42): arithmetic shift right by 10 (floor division by
1024), then clamp to `[0, 255]`. -/
def clamp8fix (vfp : ℤ) : ℤ :=
  let v := Int.fdiv vfp 1024
  if v < 0 then 0 else if v > 255 then 255 else v

/-- The fixed-point `YCbCrToRGB` (faster/decoder.cpp:19-49) on a 3-channel
pixel: `Y` is multiplied by `2^10`, the chroma offsets use the integer
coefficients 1402, 344, 714, 1772. -/
def YCbCrToRGBfix (yc cb cr : ℤ) : ℤ × ℤ × ℤ :=
  let y := yc * 1024
  let cb := cb - 128
  let cr := cr - 128
  (clamp8fix (y + 1402 * cr), clamp8fix (y - 344 * cb - 714 * cr),
    clamp8fix (y + 1772 * cb))

/-- Clamp to `[0, 255]` and round to nearest, as the floating-point
`YCbCrToRGB` (baseline/decoder.cpp:43-48) does with `llround` on the clamped
value; on the non-half values of interest Mathlib's `round` agrees with
`llround`. -/
def clampRound (q : ℚ) : ℤ := round (max 0 (min 255 q))

/-- The floating-point reference conversion (spec §4.E;
baseline/decoder.cpp:20-50), with the `long double` arithmetic modelled by
exact rationals. -/
def YCbCrToRGBref (yc cb cr : ℚ) : ℤ × ℤ × ℤ :=
  (clampRound (yc + 1402 / 1000 * (cr - 128)),
    clampRound (yc - 344136 / 1000000 * (cb - 128) - 714136 / 1000000 * (cr - 128)),
    clampRound (yc + 1772 / 1000 * (cb - 128)))

/-- `ChannelMetadata` (parsers.h). -/
structure ChannelMetadata where
  channel_id : Nat
  h : Nat
  v : Nat
  quant_id : Nat
deriving DecidableEq, Repr

/-- `ImageMetadata` (parsers.h). -/
structure ImageMetadata where
  precision : Nat
  channels_cnt : Nat
  height : Nat
  width : Nat
  channels : List ChannelMetadata
deriving DecidableEq, Repr

/-- The `ImageMetadata` constructor (part_001:39-51): only the channel count
is validated against the channel list. -/
def mkImageMetadata (precision channels_cnt height width : Nat)
    (channels : List ChannelMetadata) : Except Err ImageMetadata :=
  if channels_cnt ≠ channels.length then .error .channelsSize
  else .ok ⟨precision, channels_cnt, height, width, channels⟩

/-- `Parser::ReadSz` (part_001:163-170): segment length inclusive of its own
two bytes. -/
def ReadSz (st : BState) : Except Err (Nat × BState) := do
  let (sz, st1) ← ReadWord st
  if sz < 2 then .error .smallSection else .ok (sz - 2, st1)

/-- The per-channel loop of `Parser::ReadImageMeta` (part_001:262-268) reading
`(id, h<<4 | v, quant_id)` triples. -/
def readChannelsInfo : Nat → BState → Except Err (List ChannelMetadata × BState)
  | 0, st => .ok ([], st)
  | c + 1, st => do
    let (id, st1) ← ReadByte st
    let (hv, st2) ← ReadByte st1
    let (qid, st3) ← ReadByte st2
    let (rest, st4) ← readChannelsInfo c st3
    .ok (⟨id, hv / 16, hv % 16, qid⟩ :: rest, st4)

/-- `Parser::ReadImageMeta` (part_001:232-271): the SOF0 segment.  The
precision byte is read and stored; only the dimensions and the payload size
are validated. -/
def ReadImageMeta (st : BState) : Except Err (ImageMetadata × BState) := do
  let (sz, st1) ← ReadSz st
  if sz < 6 then .error .badMetaSize
  else
    let sz := sz - 6
    let (precision, st2) ← ReadByte st1
    let (height, st3) ← ReadWord st2
    let (width, st4) ← ReadWord st3
    let (channelsCnt, st5) ← ReadByte st4
    if height = 0 ∨ width = 0 then .error .emptyImage
    else if sz ≠ channelsCnt * 3 then .error .badMetaSize
    else do
      let (channelsInfo, st6) ← readChannelsInfo channelsCnt st5
      let meta ← mkImageMetadata precision channelsCnt height width channelsInfo
      .ok (meta, st6)

/-- A SOF0 payload (length word, precision, height, width, one 1x1 channel)
used to exercise `ReadImageMeta`. -/
def sofPayload (p hgt wdt : Nat) : List Nat :=
  [0, 11, p, hgt / 256, hgt % 256, wdt / 256, wdt % 256, 1, 1, 0x11, 0]

/-- `GetPairHash` (part_001:7-9): index of a `(table id, is_dc)` pair in the
512-entry codebook store. -/
def GetPairHash (a : Nat) (b : Bool) : Nat := 2 * a + (if b then 1 else 0)

/-- One scan channel as assembled by `Parser::ReadImageData`
(part_001:384-409): the channel id with its DC and AC codebooks (the
`dc_trees` / `ac_trees` pointers, modelled by value). -/
structure ScanChannel where
  id : Nat
  dc : HNode
  ac : HNode

/-- The per-channel loop of `Parser::ReadImageData` (part_001:388-409):
read `(channel id, dc_id<<4 | ac_id)` and resolve both codebooks, failing
when either is absent. -/
def readScanChannels (trees : Nat → Option HNode) :
    Nat → BState → Except Err (List ScanChannel × BState)
  | 0, st => .ok ([], st)
  | c + 1, st => do
    let (id, st1) ← ReadByte st
    let (mask, st2) ← ReadByte st1
    match trees (GetPairHash (mask / 16) true), trees (GetPairHash (mask % 16) false) with
    | some dcT, some acT => do
      let (rest, st3) ← readScanChannels trees c st2
      .ok (⟨id, dcT, acT⟩ :: rest, st3)
    | _, _ => .error .noHuffTable

/-- The `while (sz-- > 0)` skip loop at the end of the SOS header
(part_001:424-426). -/
def skipBytes : Nat → BState → Except Err BState
  | 0, st => .ok st
  | n + 1, st => do
    let (_, st1) ← ReadByte st
    skipBytes n st1

/-- The SOS-header part of `Parser::ReadImageData` (part_001:368-426): segment
size, channel count, per-channel codebook ids, then the three trailing bytes
`Ss, Se, Ah<<4|Al` — of which only `Se` is compared (against 63); `Ss` and the
successive-approximation byte are consumed with `(void)` casts. -/
def ReadScanHeader (trees : Nat → Option HNode) (st : BState) :
    Except Err (List ScanChannel × BState) := do
  let (sz, st1) ← ReadSz st
  if sz < 1 then .error .badSOS
  else
    let sz := sz - 1
    let (channelsCnt, st2) ← ReadByte st1
    if sz < channelsCnt * 2 then .error .badSOS
    else
      let sz := sz - channelsCnt * 2
      let (chans, st3) ← readScanChannels trees channelsCnt st2
      if sz < 3 then .error .badSOS
      else do
        let (_, st4) ← ReadByte st3
        let (se, st5) ← ReadByte st4
        if se ≠ 63 then .error .badSOS
        else do
          let (_, st6) ← ReadByte st5
          let st7 ← skipBytes (sz - 3) st6
          .ok (chans, st7)

/-- `ImageData` (parsers.h). -/
structure ImageData where
  channel_matrix : List (List (List ℤ))
  channel_ids : List Nat
  mcu_h : Nat
  mcu_w : Nat
deriving DecidableEq, Repr

/-- `ImageMetadata::GetMetaByChannelId` (part_001:11-18): first channel entry
with the given id, else fatal. -/
def GetMetaByChannelId (meta : ImageMetadata) (cid : Nat) : Except Err ChannelMetadata :=
  match meta.channels.find? (fun cm => cm.channel_id == cid) with
  | some cm => .ok cm
  | none => .error .noChannelMeta

/-- Per-scan channel configuration precomputed before the MCU loop
(part_001:448-454): codebooks and sampling factors. -/
structure ChanCfg where
  dc : HNode
  ac : HNode
  h : Nat
  v : Nat

/-- The `block_v` x `block_h` double loop for one channel of one MCU
(part_001:461-466): `v * h` sequential `ReadBlock` calls threading the
per-channel DC predictor. -/
def readNBlocks (dc ac : HNode) : Nat → ℤ → BState → Except Err (List (List ℤ) × ℤ × BState)
  | 0, prev, st => .ok ([], prev, st)
  | n + 1, prev, st => do
    let (block, prev1, st1) ← ReadBlock dc ac prev st
    let (rest, prev2, st2) ← readNBlocks dc ac n prev1 st1
    .ok (block :: rest, prev2, st2)

/-- One MCU (part_001:457-467): for each channel in scan order, its `v * h`
blocks; each channel's state is its configuration paired with its DC
predictor. -/
def readMCU : List (ChanCfg × ℤ) → BState →
    Except Err (List (List (List ℤ)) × List (ChanCfg × ℤ) × BState)
  | [], st => .ok ([], [], st)
  | (cfg, prev) :: rest, st => do
    let (blocks, prev1, st1) ← readNBlocks cfg.dc cfg.ac (cfg.v * cfg.h) prev st
    let (brest, rest1, st2) ← readMCU rest st1
    .ok (blocks :: brest, (cfg, prev1) :: rest1, st2)

/-- The `mcu_y` x `mcu_x` double loop (part_001:455-469): `mcu_h * mcu_w`
sequential MCUs, appending each channel's new blocks to its matrix. -/
def readMCUs : Nat → List (ChanCfg × ℤ) → List (List (List ℤ)) → BState →
    Except Err (List (List (List ℤ)) × BState)
  | 0, _, mats, st => .ok (mats, st)
  | m + 1, chans, mats, st => do
    let (news, chans1, st1) ← readMCU chans st
    readMCUs m chans1 (List.zipWith (· ++ ·) mats news) st1

/-- `h_max` over the frame channels (part_001:428-432). -/
def hMaxOf (meta : ImageMetadata) : Nat := meta.channels.foldl (fun m cm => max m cm.h) 0

/-- `v_max` over the frame channels (part_001:428-432). -/
def vMaxOf (meta : ImageMetadata) : Nat := meta.channels.foldl (fun m cm => max m cm.v) 0

/-- The precomputation loop filling `channel_metadata[c]` (part_001:448-454):
resolve each scan channel's frame metadata. -/
def buildCfgs (meta : ImageMetadata) : List ScanChannel → Except Err (List ChanCfg)
  | [] => .ok []
  | sc :: rest => do
    let cm ← GetMetaByChannelId meta sc.id
    let cfgs ← buildCfgs meta rest
    .ok (⟨sc.dc, sc.ac, cm.h, cm.v⟩ :: cfgs)

/-- `Parser::ReadImageData` (part_001:365-473): SOS header, sampling maxima
with the zero check, the MCU grid dimensions, and the MCU decode loop from
per-channel zero DC predictors and empty matrices. -/
def ReadImageData (trees : Nat → Option HNode) (meta : ImageMetadata) (st : BState) :
    Except Err (ImageData × BState) := do
  let (chans, st1) ← ReadScanHeader trees st
  if hMaxOf meta = 0 ∨ vMaxOf meta = 0 then .error .zeroSampling
  else
    let mcuH := (meta.height + 8 * vMaxOf meta - 1) / (8 * vMaxOf meta)
    let mcuW := (meta.width + 8 * hMaxOf meta - 1) / (8 * hMaxOf meta)
    let cfgs ← buildCfgs meta chans
    let (mats, st2) ← readMCUs (mcuH * mcuW)
        (cfgs.map (fun cfg => (cfg, (0 : ℤ)))) (cfgs.map (fun _ => [])) st1
    .ok (⟨mats, chans.map (·.id), mcuH, mcuW⟩, st2)

/-- The `MarkerType::Data` branch of `Parser::ReadRawImage` (part_001:130-136):
read the scan, then `bit_reader_.Align()`. -/
def ReadDataSegment (trees : Nat → Option HNode) (meta : ImageMetadata) (st : BState) :
    Except Err (ImageData × BState) := do
  let (d, st1) ← ReadImageData trees meta st
  .ok (d, Align st1)

/-- DC codebook with the single symbol 0 at depth 1 (so a DC differential of
zero), distinct from the AC EOB codebook only in role. -/
def dcTree0 : HNode := .inner (some (.term 0)) none

/-- Codebook store holding `dcTree0` as DC table 0 and `acTreeEOB` as AC
table 0. -/
def treesC4 : Nat → Option HNode := fun n =>
  if n = 1 then some dcTree0 else if n = 0 then some acTreeEOB else none

/-- An SOS payload: one channel (id 1, DC/AC table 0), trailing bytes
`ss, se, a`. -/
def sosBytes (ss se a : Nat) : List Nat := [0, 8, 1, 1, 0, ss, se, a]

/-- 1x1 grayscale metadata: one channel, id 1, h = v = 1. -/
def meta1x1 : ImageMetadata := ⟨8, 1, 1, 1, [⟨1, 1, 1, 0⟩]⟩

/-- Basis factor of FFTW's REDFT01 (DCT-III), modelled from the spec: the
source delegates the transform to `fftw_plan_r2r_2d(..., FFTW_REDFT01,
FFTW_REDFT01, ...)`, an external library, whose 1-D definition is
`out[j] = X[0] + 2 * sum_{k>=1} X[k] cos(pi k (2j+1) / (2n))`. -/
noncomputable def redft01coef (n k j : ℕ) : ℝ :=
  if k = 0 then 1 else 2 * Real.cos (Real.pi * k * (2 * j + 1) / (2 * n))

/-- The scaling loop of `DctCalculator::Impl::Inverse` (part_000:13-28,
part_001:486-499): every input divided by 16, first row (`i < width`) and
first column (`i % width == 0`) multiplied by √2; `(u, v)` is the row-major
position `i = u*8 + v`. -/
noncomputable def idctScaledInput (block : List ℤ) (u v : ℕ) : ℝ :=
  ((block.getD (u * 8 + v) 0 : ℤ) : ℝ) / 16 *
    (if u = 0 then Real.sqrt 2 else 1) * (if v = 0 then Real.sqrt 2 else 1)

/-- The separable 2-D REDFT01 over an 8×8 input (spec-modelled, FFTW). -/
noncomputable def redft01_2d (X : ℕ → ℕ → ℝ) (j1 j2 : ℕ) : ℝ :=
  ∑ k1 ∈ Finset.range 8, ∑ k2 ∈ Finset.range 8,
    X k1 k2 * redft01coef 8 k1 j1 * redft01coef 8 k2 j2

/-- `IDCT` on one block (baseline/decoder.cpp:68-85 driving `DctCalculator`):
scale, apply the 2-D REDFT01, round each output and narrow with
`static_cast<int16_t>`. -/
noncomputable def IDCTblock (block : List ℤ) : List ℤ :=
  (List.range 64).map fun i =>
    toInt16 (round (redft01_2d (idctScaledInput block) (i / 8) (i % 8)))

/-- One sample of `Rationing` (baseline/decoder.cpp:87-98):
`min<int16_t>(max<int16_t>(0, x + 128), 255)`, the `int` sum narrowing into
`int16_t` at the `max` call. -/
def rationing1 (x : ℤ) : ℤ := min (max 0 (toInt16 (x + 128))) 255

/-- The per-block reconstruction pipeline of `Decode`
(baseline/decoder.cpp:155-174): `Quantization` (elementwise `Mult`), `IDCT`,
`Rationing`. -/
noncomputable def decodeBlockPipeline (block quant : List ℤ) : Except Err (List ℤ) :=
  match Mult block quant with
  | .error e => .error e
  | .ok deq => .ok ((IDCTblock deq).map rationing1)

/-- The grayscale pixel produced from a single-channel sample by the baseline
`YCbCrToRGB`: absent chroma defaults to `cb = cr = 128`. -/
def grayPixel (y : ℤ) : ℤ × ℤ × ℤ := YCbCrToRGBref (y : ℚ) 128 128

/-- The entropy-decoded block with DC coefficient 64 and all AC zero. -/
def dcBlock64 : List ℤ := 64 :: List.replicate 63 0

/-- The all-ones quantization table. -/
def onesQuant : List ℤ := List.replicate 64 1

theorem destuff_nil : destuff [] = some [] := rfl

theorem destuff_ff (b c : Nat) (rest : List Nat) (hb : b % 256 = 255) (hc : c % 256 = 0) :
    destuff (b :: c :: rest) = (destuff rest).map (b :: ·) := by
  rw [destuff.eq_def]; simp [hb, hc]

theorem destuff_ff_end (b : Nat) (hb : b % 256 = 255) : destuff [b] = none := by
  rw [destuff.eq_def]; simp [hb]

theorem destuff_ff_bad (b c : Nat) (rest : List Nat) (hb : b % 256 = 255)
    (hc : c % 256 ≠ 0) : destuff (b :: c :: rest) = none := by
  rw [destuff.eq_def]; simp [hb, hc]

theorem destuff_other (b : Nat) (rest : List Nat) (hb : b % 256 ≠ 255) :
    destuff (b :: rest) = (destuff rest).map (b :: ·) := by
  rw [destuff.eq_def]; simp [hb]

/-- One bit-consuming step of both readers stays in the destuffing relation. -/
theorem readBitsLoop_destuff (n : Nat) :
    ∀ (acc buf k : Nat) (s t : List Nat), destuff s = some t →
      sameOutcome (readBitsLoop n acc ⟨s, buf, k⟩)
        (readBitsLoopPlain n acc ⟨t, buf, k⟩) = true := by
  induction n with
  | zero =>
    intro acc buf k s t h
    simp [readBitsLoop, readBitsLoopPlain, sameOutcome, h]
  | succ m ih =>
    intro acc buf k s t h
    by_cases hk : k = 0
    · subst hk
      match s with
      | [] =>
        have ht : t = [] := by simpa [destuff_nil] using h
        subst ht
        simp [readBitsLoop, readBitsLoopPlain, refill, refillPlain, sameOutcome]
      | b :: rest =>
        by_cases hb : b % 256 = 255
        · match rest with
          | [] => rw [destuff_ff_end b hb] at h; exact absurd h (by simp)
          | c :: rest2 =>
            by_cases hc : c % 256 = 0
            · rw [destuff_ff b c rest2 hb hc, Option.map_eq_some'] at h
              obtain ⟨t2, ht2, rfl⟩ := h
              simpa [readBitsLoop, readBitsLoopPlain, refill, refillPlain, hb, hc]
                using ih _ _ _ rest2 t2 ht2
            · rw [destuff_ff_bad b c rest2 hb hc] at h; exact absurd h (by simp)
        · rw [destuff_other b rest hb, Option.map_eq_some'] at h
          obtain ⟨t2, ht2, rfl⟩ := h
          simpa [readBitsLoop, readBitsLoopPlain, refill, refillPlain, hb]
            using ih _ _ _ rest t2 ht2
    · have h1 : readBitsLoop (m + 1) acc ⟨s, buf, k⟩ =
          readBitsLoop m ((acc * 2 + buf / 128 % 2) % 65536) ⟨s, buf * 2 % 256, k - 1⟩ := by
        simp [readBitsLoop, hk]
      have h2 : readBitsLoopPlain (m + 1) acc ⟨t, buf, k⟩ =
          readBitsLoopPlain m ((acc * 2 + buf / 128 % 2) % 65536) ⟨t, buf * 2 % 256, k - 1⟩ := by
        simp [readBitsLoopPlain, hk]
      rw [h1, h2]
      exact ih _ _ _ s t h

end Jpeg

namespace Jpeg

theorem readBitsLoop_step (n acc : Nat) (st : BState) (h : st.bufferSize ≠ 0) :
    readBitsLoop (n + 1) acc st =
      readBitsLoop n ((acc * 2 + st.buffer / 128 % 2) % 65536)
        ⟨st.stream, st.buffer * 2 % 256, st.bufferSize - 1⟩ := by
  rw [readBitsLoop]
  simp [h]

theorem readBitsLoop_refill_step (n acc : Nat) (st st1 : BState) (h : st.bufferSize = 0)
    (hr : refill st = .ok st1) :
    readBitsLoop (n + 1) acc st =
      readBitsLoop n ((acc * 2 + st1.buffer / 128 % 2) % 65536)
        ⟨st1.stream, st1.buffer * 2 % 256, st1.bufferSize - 1⟩ := by
  rw [readBitsLoop]
  simp [h, hr]

theorem readBitsLoop_refill_err (n acc : Nat) (st : BState) (e : Err) (h : st.bufferSize = 0)
    (hr : refill st = .error e) : readBitsLoop (n + 1) acc st = .error e := by
  rw [readBitsLoop]
  simp [h, hr]

/-- **C1**: on a refill of the empty holding buffer, a `0xFF` byte consumes
exactly one further byte: a `0x00` is discarded and `0xFF` serves as data bits,
while any other value or end of stream is a fatal marker error; hence reading
bits from a payload containing `FF 00` yields the same bit sequence as an ideal
(unstuffed) bit source reading the payload with only `FF`. -/
theorem C1_readBits_byte_stuffing :
    (∀ n x rest, 1 ≤ n → n ≤ 16 → x % 256 ≠ 0 →
        ReadBits n ⟨0xff :: x :: rest, 0, 0⟩ = .error .marker) ∧
    (∀ n, 1 ≤ n → n ≤ 16 → ReadBits n ⟨[0xff], 0, 0⟩ = .error .marker) ∧
    (∀ rest, ReadBits 8 ⟨0xff :: 0x00 :: rest, 0, 0⟩ = .ok (0xff, ⟨rest, 0, 0⟩)) ∧
    (∀ n s t, n ≤ 16 → destuff s = some t →
        sameOutcome (ReadBits n ⟨s, 0, 0⟩) (ReadBitsPlain n ⟨t, 0, 0⟩) = true) := by
  refine ⟨?_, ?_, ?_, ?_⟩
  · intro n x rest h1 h16 hx
    obtain ⟨m, rfl⟩ : ∃ m, n = m + 1 := ⟨n - 1, (Nat.succ_pred_eq_of_pos h1).symm⟩
    rw [ReadBits, if_neg (by omega),
      readBitsLoop_refill_err m 0 _ .marker rfl (by rw [refill.eq_def]; simp [hx])]
  · intro n h1 h16
    obtain ⟨m, rfl⟩ : ∃ m, n = m + 1 := ⟨n - 1, (Nat.succ_pred_eq_of_pos h1).symm⟩
    rw [ReadBits, if_neg (by omega),
      readBitsLoop_refill_err m 0 _ .marker rfl (by rw [refill.eq_def]; simp)]
  · intro rest
    rw [ReadBits, if_neg (by norm_num),
      readBitsLoop_refill_step 7 0 _ ⟨rest, 0xff, 8⟩ rfl (by rw [refill.eq_def]; simp)]
    norm_num
    rw [readBitsLoop_step 6 1 ⟨rest, 254, 7⟩ (by norm_num)]
    norm_num
    rw [readBitsLoop_step 5 3 ⟨rest, 252, 6⟩ (by norm_num)]
    norm_num
    rw [readBitsLoop_step 4 7 ⟨rest, 248, 5⟩ (by norm_num)]
    norm_num
    rw [readBitsLoop_step 3 15 ⟨rest, 240, 4⟩ (by norm_num)]
    norm_num
    rw [readBitsLoop_step 2 31 ⟨rest, 224, 3⟩ (by norm_num)]
    norm_num
    rw [readBitsLoop_step 1 63 ⟨rest, 192, 2⟩ (by norm_num)]
    norm_num
    rw [readBitsLoop_step 0 127 ⟨rest, 128, 1⟩ (by norm_num)]
    norm_num
    rw [readBitsLoop]
  · intro n s t h16 h
    simpa [ReadBits, ReadBitsPlain, Nat.not_lt.mpr h16] using
      readBitsLoop_destuff n 0 0 0 s t h

theorem C1_readBits_byte_stuffing_witness :
    (1 ≤ 8 ∧ 8 ≤ 16 ∧ (1 : Nat) % 256 ≠ 0 ∧
      ReadBits 8 ⟨[0xff, 1, 7], 0, 0⟩ = .error .marker) ∧
    (ReadBits 8 ⟨[0xff, 0x00, 7], 0, 0⟩ = .ok (0xff, ⟨[7], 0, 0⟩)) ∧
    (destuff [0xff, 0x00] = some [0xff] ∧
      sameOutcome (ReadBits 8 ⟨[0xff, 0x00], 0, 0⟩)
        (ReadBitsPlain 8 ⟨[0xff], 0, 0⟩) = true) :=
  ⟨⟨by decide, by decide, by decide,
      C1_readBits_byte_stuffing.1 8 1 [7] (by decide) (by decide) (by decide)⟩,
    C1_readBits_byte_stuffing.2.2.1 [7],
    ⟨by decide, C1_readBits_byte_stuffing.2.2.2 8 [0xff, 0x00] [0xff] (by decide) (by decide)⟩⟩

/-- **C7** (code_bug evidence): at end of stream `ReadBits` reports the error,
but `ReadByte` does not test the stream after `in_.read` and returns a value
(the indeterminate local byte), and `ReadWord` therefore also returns a value. -/
theorem C7_eof_primitives :
    ReadBits 1 ⟨[], 0, 0⟩ = .error .eof ∧
    ReadByte ⟨[], 0, 0⟩ = .ok (junkByte, ⟨[], 0, 0⟩) ∧
    ReadWord ⟨[], 0, 0⟩ = .ok (junkByte * 256 + junkByte, ⟨[], 0, 0⟩) :=
  ⟨rfl, rfl, rfl⟩

/-- **C3** is false as stated: a DC symbol of 12 (> 11) is not rejected — the
block decode succeeds, reading 12 differential bits.  The two codebooks are
genuine `Build` results; the stream `40 00` supplies the code `0` (symbol 12),
the 12 bits `1000 0000 0000`, and the AC EOB code. -/
theorem C3_counterexample_dc12_accepted :
    Build (1 :: List.replicate 15 0) [12] = .ok dcTree12 ∧
    Build (1 :: List.replicate 15 0) [0] = .ok acTreeEOB ∧
    ReadFromHuffmanTree dcTree12 ⟨[0x40, 0x00], 0, 0⟩ = .ok (12, ⟨[0x00], 0x80, 7⟩) ∧
    12 > 11 ∧
    (ReadBlock dcTree12 acTreeEOB 0 ⟨[0x40, 0x00], 0, 0⟩).isOk = true :=
  ⟨rfl, rfl, by decide, by decide, by decide⟩

/-- **C3 (amended)**: the decoder never validates the DC symbol against 11;
a decoded DC symbol `s > 16` makes the block decode fail via the bit reader's
16-bit limit (`Trying to read many bytes`), while any `s ≤ 16` merely reads
`s` signed differential bits. -/
theorem C3_dc_symbol_limit (dcTree acTree : HNode) (prevDc : ℤ) (st st' : BState) (s : Nat)
    (hsym : ReadFromHuffmanTree dcTree st = .ok (s, st')) (hs : s > 16) :
    ReadBlock dcTree acTree prevDc st = .error .tooManyBits := by
  have hne : s ≠ 0 := by omega
  simp [ReadBlock, hsym, ReadBitsSigned, hne, ReadBits, hs]

theorem C3_dc_symbol_limit_witness :
    ReadFromHuffmanTree dcTree17 ⟨[0], 0, 0⟩ = .ok (17, ⟨[], 0, 7⟩) ∧
    17 > 16 ∧
    ReadBlock dcTree17 acTreeEOB 0 ⟨[0], 0, 0⟩ = .error .tooManyBits :=
  ⟨by decide, by decide,
    C3_dc_symbol_limit dcTree17 acTreeEOB 0 ⟨[0], 0, 0⟩ ⟨[], 0, 7⟩ 17 (by decide) (by decide)⟩

/-- **C9** (code_bug evidence): with an exhausted histogram (all 16 entries
zero) and one further value, `HuffmanTree::Build`'s depth-skipping loop walks
past the end of the 16-entry working histogram — the loop condition reads
`code_lengths_new[16]` before testing `now_length <= 16`, an out-of-bounds
read — instead of stopping with one of the declared errors. -/
theorem C9_build_oob_read :
    Build (List.replicate 16 0) [0] = .error .oobRead ∧
    skipZeroLengths (List.replicate 16 0) 1 = none :=
  ⟨rfl, rfl⟩

theorem toInt16_eq_self (z : ℤ) : toInt16 z = z ↔ -32768 ≤ z ∧ z ≤ 32767 := by
  unfold toInt16; omega

/-- **C10**: dequantization stores `toInt16 (coefficient * quantizer)` at each
index — the product reduced into two's-complement `int16_t` — which equals the
exact product precisely when that product lies in `[-32768, 32767]`; and there
are in-range coefficient-quantizer pairs for which it does not. -/
theorem C10_mult_wraps_int16 (one two : List ℤ) (h : one.length = two.length) :
    (∃ res, Mult one two = .ok res ∧ res.length = one.length ∧
      ∀ i, i < one.length →
        res.getD i 0 = toInt16 (one.getD i 0 * two.getD i 0) ∧
        (res.getD i 0 = one.getD i 0 * two.getD i 0 ↔
          -32768 ≤ one.getD i 0 * two.getD i 0 ∧ one.getD i 0 * two.getD i 0 ≤ 32767)) ∧
    (Mult [1000] [1000] = .ok [16960] ∧ (16960 : ℤ) ≠ 1000 * 1000) := by
  constructor
  · refine ⟨List.zipWith (fun a b => toInt16 (a * b)) one two, by simp [Mult, h],
      by simp [List.length_zipWith, h], ?_⟩
    intro i hi
    have hi2 : i < two.length := h ▸ hi
    have hlen : i < (List.zipWith (fun a b => toInt16 (a * b)) one two).length := by
      simp [List.length_zipWith]; omega
    have hget : (List.zipWith (fun a b => toInt16 (a * b)) one two).getD i 0 =
        toInt16 (one.getD i 0 * two.getD i 0) := by
      rw [List.getD_eq_getElem _ _ hlen, List.getElem_zipWith,
        List.getD_eq_getElem _ _ hi, List.getD_eq_getElem _ _ hi2]
    exact ⟨hget, by rw [hget]; exact toInt16_eq_self _⟩
  · exact ⟨by decide, by decide⟩

theorem C10_mult_wraps_int16_witness :
    ∃ res, Mult [2, -3] [5, 7] = .ok res ∧ res.length = 2 ∧
      ∀ i, i < 2 →
        res.getD i 0 = toInt16 ([2, -3].getD i 0 * [(5 : ℤ), 7].getD i 0) ∧
        (res.getD i 0 = [2, -3].getD i 0 * [(5 : ℤ), 7].getD i 0 ↔
          -32768 ≤ [2, -3].getD i 0 * [(5 : ℤ), 7].getD i 0 ∧
            [2, -3].getD i 0 * [(5 : ℤ), 7].getD i 0 ≤ 32767) :=
  (C10_mult_wraps_int16 [2, -3] [5, 7] (by decide)).1

/-- **C6** (code_bug evidence): at `(Y, Cb, Cr) = (0, 128, 255)` the
fixed-point conversion yields `R = 173` while the floating-point reference
yields `R = 178` — a difference of 5, not within the claimed ±1.  The integer
coefficients 1402, 344, 714, 1772 are per-mille scalings, but the arithmetic
shift divides by 1024. -/
theorem C6_fixed_point_off_by_five :
    YCbCrToRGBfix 0 128 255 = (173, 0, 0) ∧
    YCbCrToRGBref 0 128 255 = (178, 0, 0) ∧
    ¬ ((178 : ℤ) - 173 ≤ 1) := by
  refine ⟨by decide, ?_, by decide⟩
  show (clampRound (0 + 1402 / 1000 * (255 - 128)),
    clampRound (0 - 344136 / 1000000 * (128 - 128) - 714136 / 1000000 * (255 - 128)),
    clampRound (0 + 1772 / 1000 * (128 - 128))) = (178, 0, 0)
  norm_num [clampRound, round_eq]

/-- **C5 (amended)**: `Parser::ReadImageMeta` stores the precision byte
without validating it: a SOF0 whose precision byte is any value, with nonzero
dimensions and a consistent payload size, is accepted and the stored precision
equals that byte. -/
theorem C5_precision_not_validated (p hgt wdt : Nat) (hp : p < 256)
    (hh : 0 < hgt) (hh2 : hgt < 65536) (hw : 0 < wdt) (hw2 : wdt < 65536) :
    ReadImageMeta ⟨sofPayload p hgt wdt, 0, 0⟩ =
      .ok (⟨p, 1, hgt, wdt, [⟨1, 1, 1, 0⟩]⟩, ⟨[], 0, 0⟩) := by
  have hd : hgt / 256 < 256 := by omega
  have wd : wdt / 256 < 256 := by omega
  have hm : hgt % 256 < 256 := by omega
  have wm : wdt % 256 < 256 := by omega
  simp [ReadImageMeta, sofPayload, ReadSz, ReadWord, ReadByte, readChannelsInfo,
    mkImageMetadata, bind, Except.bind, Nat.mod_eq_of_lt hd,
    Nat.mod_eq_of_lt wd, Nat.mod_eq_of_lt hm, Nat.mod_eq_of_lt wm, Nat.mod_eq_of_lt hp,
    Nat.div_add_mod, Nat.pos_iff_ne_zero.mp hh, Nat.pos_iff_ne_zero.mp hw]
  rw [(by omega : hgt / 256 * 256 + hgt % 256 = hgt),
    (by omega : wdt / 256 * 256 + wdt % 256 = wdt), if_neg (by omega)]

theorem C5_precision_not_validated_witness :
    ReadImageMeta ⟨sofPayload 8 2 3, 0, 0⟩ =
      .ok (⟨8, 1, 2, 3, [⟨1, 1, 1, 0⟩]⟩, ⟨[], 0, 0⟩) :=
  C5_precision_not_validated 8 2 3 (by decide) (by decide) (by decide) (by decide) (by decide)

/-- **C5** is false as stated: a SOF0 with precision byte 9 (≠ 8) and
otherwise valid fields is accepted, not rejected. -/
theorem C5_counterexample_precision9 :
    ReadImageMeta ⟨sofPayload 9 1 1, 0, 0⟩ =
      .ok (⟨9, 1, 1, 1, [⟨1, 1, 1, 0⟩]⟩, ⟨[], 0, 0⟩) ∧ (9 : Nat) ≠ 8 :=
  ⟨by decide, by decide⟩

/-- **C4** is false as stated: an SOS whose spectral-start byte is 1 (≠ 0) and
whose successive-approximation byte is 5 (≠ 0) is accepted, provided only that
the spectral-end byte equals 63. -/
theorem C4_counterexample_ss_a_unchecked :
    (ReadScanHeader treesC4 ⟨sosBytes 1 63 5, 0, 0⟩).isOk = true ∧
    (1 : Nat) ≠ 0 ∧ (5 : Nat) ≠ 0 := by
  refine ⟨by decide, by decide, by decide⟩

/-- **C4 (amended)**: of the three trailing SOS parameter bytes only the
spectral-end byte is verified — parsing fails exactly when it differs from
63; the spectral-start and successive-approximation bytes are consumed
without any check. -/
theorem C4_only_se_verified (ss se a : Nat) (hse : se < 256) :
    ReadScanHeader treesC4 ⟨sosBytes ss se a, 0, 0⟩ =
      if se = 63 then .ok ([⟨1, dcTree0, acTreeEOB⟩], ⟨[], 0, 0⟩)
      else .error .badSOS := by
  simp [ReadScanHeader, sosBytes, ReadSz, ReadWord, ReadByte, readScanChannels,
    treesC4, GetPairHash, skipBytes, bind, Except.bind, Nat.mod_eq_of_lt hse,
    dcTree0, acTreeEOB]

theorem C4_only_se_verified_witness :
    ReadScanHeader treesC4 ⟨sosBytes 17 63 9, 0, 0⟩ =
      .ok ([⟨1, dcTree0, acTreeEOB⟩], ⟨[], 0, 0⟩) ∧
    ReadScanHeader treesC4 ⟨sosBytes 0 62 0, 0, 0⟩ = .error .badSOS := by
  have h1 := C4_only_se_verified 17 63 9 (by decide)
  have h2 := C4_only_se_verified 0 62 0 (by decide)
  simp at h1 h2
  exact ⟨h1, h2⟩

theorem readNBlocks_ok_length (dc ac : HNode) (n : Nat) :
    ∀ prev st bs p s, readNBlocks dc ac n prev st = .ok (bs, p, s) → bs.length = n := by
  induction n with
  | zero =>
    intro prev st bs p s h
    simp [readNBlocks] at h
    simp [h.1]
  | succ m ih =>
    intro prev st bs p s h
    simp only [readNBlocks, bind, Except.bind] at h
    match hb : ReadBlock dc ac prev st with
    | .error e => simp [hb] at h
    | .ok (block, prev1, st1) =>
      simp only [hb] at h
      match hr : readNBlocks dc ac m prev1 st1 with
      | .error e => simp [hr] at h
      | .ok (rest, prev2, st2) =>
        simp only [hr] at h
        simp only [Except.ok.injEq, Prod.mk.injEq] at h
        obtain ⟨hbs, -, -⟩ := h
        rw [← hbs]
        simp [ih _ _ _ _ _ hr]

theorem readMCU_ok (chans : List (ChanCfg × ℤ)) :
    ∀ (st : BState) (news : List (List (List ℤ))) (chans1 : List (ChanCfg × ℤ))
      (st1 : BState), readMCU chans st = .ok (news, chans1, st1) →
      news.length = chans.length ∧ chans1.length = chans.length ∧
      ∀ (i : Nat) (cfg : ChanCfg) (p : ℤ), chans[i]? = some (cfg, p) →
        ∃ (blocks : List (List ℤ)) (p' : ℤ), news[i]? = some blocks ∧
          blocks.length = cfg.v * cfg.h ∧ chans1[i]? = some (cfg, p') := by
  induction chans with
  | nil =>
    intro st news chans1 st1 h
    simp [readMCU] at h
    obtain ⟨h1, h2, -⟩ := h
    subst h1; subst h2
    simp
  | cons hd tl ih =>
    intro st news chans1 st1 h
    obtain ⟨cfg0, prev0⟩ := hd
    simp only [readMCU, bind, Except.bind] at h
    match hb : readNBlocks cfg0.dc cfg0.ac (cfg0.v * cfg0.h) prev0 st with
    | .error e => simp [hb] at h
    | .ok (blocks0, prev1, st1') =>
      simp only [hb] at h
      match hm : readMCU tl st1' with
      | .error e => simp [hm] at h
      | .ok (brest, rest1, st2) =>
        simp only [hm] at h
        simp only [Except.ok.injEq, Prod.mk.injEq] at h
        obtain ⟨hn, hc, -⟩ := h
        obtain ⟨l1, l2, helem⟩ := ih st1' brest rest1 st2 hm
        subst hn hc
        refine ⟨by simp [l1], by simp [l2], ?_⟩
        intro i cfg p hget
        match i with
        | 0 =>
          simp at hget
          obtain ⟨rfl, rfl⟩ := hget
          exact ⟨blocks0, prev1, by simp, readNBlocks_ok_length _ _ _ _ _ _ _ _ hb, by simp⟩
        | i + 1 =>
          simp only [List.getElem?_cons_succ] at hget ⊢
          exact helem i cfg p hget

theorem get?_zipWith {α : Type} (f : α → α → α) :
    ∀ (as bs : List α) (i : Nat) (a b : α), as[i]? = some a → bs[i]? = some b →
      (List.zipWith f as bs)[i]? = some (f a b) := by
  intro as
  induction as with
  | nil => intro bs i a b h; simp at h
  | cons x xs ih =>
    intro bs i a b h1 h2
    match bs with
    | [] => simp at h2
    | y :: ys =>
      match i with
      | 0 =>
        simp at h1 h2
        simp [List.zipWith, h1, h2]
      | i + 1 =>
        simp at h1 h2 ⊢
        exact ih ys i a b h1 h2

theorem readMCUs_ok (m : Nat) :
    ∀ (chans : List (ChanCfg × ℤ)) (mats : List (List (List ℤ))) (st : BState)
      (mats' : List (List (List ℤ))) (st' : BState),
      readMCUs m chans mats st = .ok (mats', st') →
      mats.length = chans.length →
      ∀ (i : Nat) (cfg : ChanCfg) (p : ℤ) (mi : List (List ℤ)),
        chans[i]? = some (cfg, p) → mats[i]? = some mi →
        ∃ mi', mats'[i]? = some mi' ∧ mi'.length = mi.length + m * (cfg.v * cfg.h) := by
  induction m with
  | zero =>
    intro chans mats st mats' st' h hlen i cfg p mi hc hm
    simp [readMCUs] at h
    obtain ⟨h1, -⟩ := h
    subst h1
    exact ⟨mi, hm, by simp⟩
  | succ k ih =>
    intro chans mats st mats' st' h hlen i cfg p mi hc hm
    simp only [readMCUs, bind, Except.bind] at h
    match hmcu : readMCU chans st with
    | .error e => simp [hmcu] at h
    | .ok (news, chans1, st1) =>
      simp only [hmcu] at h
      obtain ⟨hn, hc1, helem⟩ := readMCU_ok chans st news chans1 st1 hmcu
      obtain ⟨blocks, p', hnews, hblen, hchans1⟩ := helem i cfg p hc
      have hzip : (List.zipWith (· ++ ·) mats news)[i]? = some (mi ++ blocks) :=
        get?_zipWith _ mats news i mi blocks hm hnews
      have hzlen : (List.zipWith (· ++ ·) mats news).length = chans1.length := by
        simp [List.length_zipWith, hlen, hn, hc1]
      obtain ⟨mi', hmi', hlen'⟩ := ih chans1 _ st1 mats' st' h hzlen i cfg p' (mi ++ blocks)
        hchans1 hzip
      refine ⟨mi', hmi', ?_⟩
      rw [hlen']
      simp [hblen, Nat.succ_mul]
      ring

theorem buildCfgs_ok (meta : ImageMetadata) :
    ∀ chans cfgs, buildCfgs meta chans = .ok cfgs →
      cfgs.length = chans.length ∧
      ∀ (i : Nat) (sc : ScanChannel), chans[i]? = some sc →
        ∃ (cm : ChannelMetadata), GetMetaByChannelId meta sc.id = .ok cm ∧
          cfgs[i]? = some ⟨sc.dc, sc.ac, cm.h, cm.v⟩ := by
  intro chans
  induction chans with
  | nil =>
    intro cfgs h
    simp [buildCfgs] at h
    simp [← h]
  | cons sc0 tl ih =>
    intro cfgs h
    simp only [buildCfgs, bind, Except.bind] at h
    match hg : GetMetaByChannelId meta sc0.id with
    | .error e => simp [hg] at h
    | .ok cm0 =>
      simp only [hg] at h
      match hb : buildCfgs meta tl with
      | .error e => simp [hb] at h
      | .ok cfgs0 =>
        simp only [hb] at h
        simp only [Except.ok.injEq] at h
        obtain ⟨hlen, helem⟩ := ih cfgs0 hb
        subst h
        refine ⟨by simp [hlen], ?_⟩
        intro i sc hget
        match i with
        | 0 =>
          simp at hget
          subst hget
          exact ⟨cm0, hg, by simp⟩
        | i + 1 =>
          simp at hget ⊢
          exact helem i sc hget

theorem ceil_div_spec (a d : Nat) (hd : 0 < d) (ha : 0 < a) :
    a ≤ d * ((a + d - 1) / d) ∧ d * ((a + d - 1) / d - 1) < a := by
  have e := Nat.div_add_mod (a + d - 1) d
  have hr := Nat.mod_lt (a + d - 1) hd
  set q := (a + d - 1) / d with hq
  rcases Nat.eq_zero_or_pos q with h0 | hpos
  · rw [h0] at e; omega
  · have h1 : d * (q - 1) = d * q - d := by
      cases q with
      | zero => omega
      | succ t => simp [Nat.mul_succ]
    have h2 : d * q = a + d - 1 - (a + d - 1) % d := by omega
    omega



/-- **C2**: whenever the scan decodes successfully (the `MarkerType::Data`
branch, ending in `Align`), each channel's matrix holds exactly
`mcu_w * mcu_h * h_i * v_i` blocks, where `mcu_h`/`mcu_w` are the ceiling
divisions of the frame dimensions by `8 * vMax` / `8 * hMax` (stated both by
the code's formula and by the two inequalities characterizing the ceiling),
and the bit source ends with an empty holding buffer. -/
theorem C2_block_counts_and_align (trees : Nat → Option HNode) (meta : ImageMetadata)
    (st : BState) (idata : ImageData) (st' : BState)
    (hok : ReadDataSegment trees meta st = .ok (idata, st'))
    (hh : 0 < meta.height) (hw : 0 < meta.width) :
    (idata.mcu_h = (meta.height + 8 * vMaxOf meta - 1) / (8 * vMaxOf meta) ∧
     idata.mcu_w = (meta.width + 8 * hMaxOf meta - 1) / (8 * hMaxOf meta) ∧
     meta.height ≤ 8 * vMaxOf meta * idata.mcu_h ∧
     8 * vMaxOf meta * (idata.mcu_h - 1) < meta.height ∧
     meta.width ≤ 8 * hMaxOf meta * idata.mcu_w ∧
     8 * hMaxOf meta * (idata.mcu_w - 1) < meta.width) ∧
    (∀ (c : Nat) (cid : Nat), idata.channel_ids[c]? = some cid →
      ∃ (cm : ChannelMetadata) (mat : List (List ℤ)),
        GetMetaByChannelId meta cid = .ok cm ∧
        idata.channel_matrix[c]? = some mat ∧
        mat.length = idata.mcu_w * idata.mcu_h * cm.h * cm.v) ∧
    st'.bufferSize = 0 ∧ st'.buffer = 0 := by
  simp only [ReadDataSegment, bind, Except.bind] at hok
  match hid : ReadImageData trees meta st with
  | .error e => simp [hid] at hok
  | .ok (d, st1) =>
    simp only [hid, Except.ok.injEq, Prod.mk.injEq] at hok
    obtain ⟨rfl, rfl⟩ := hok
    simp only [ReadImageData, bind, Except.bind] at hid
    match hsh : ReadScanHeader trees st with
    | .error e => simp [hsh] at hid
    | .ok (chans, st2) =>
      simp only [hsh] at hid
      by_cases hz : hMaxOf meta = 0 ∨ vMaxOf meta = 0
      · simp [hz] at hid
      · rw [if_neg hz] at hid
        match hcf : buildCfgs meta chans with
        | .error e => simp [hcf] at hid
        | .ok cfgs =>
          simp only [hcf] at hid
          match hms : readMCUs
              (((meta.height + 8 * vMaxOf meta - 1) / (8 * vMaxOf meta)) *
                ((meta.width + 8 * hMaxOf meta - 1) / (8 * hMaxOf meta)))
              (cfgs.map (fun cfg => (cfg, (0 : ℤ)))) (cfgs.map (fun _ => [])) st2 with
          | .error e => simp only [hms] at hid; simp at hid
          | .ok (mats, st3) =>
            simp only [hms, Except.ok.injEq, Prod.mk.injEq] at hid
            obtain ⟨rfl, rfl⟩ := hid
            push_neg at hz
            obtain ⟨hzH, hzV⟩ := hz
            have hdV : 0 < 8 * vMaxOf meta := by omega
            have hdH : 0 < 8 * hMaxOf meta := by omega
            refine ⟨⟨rfl, rfl, (ceil_div_spec _ _ hdV hh).1, (ceil_div_spec _ _ hdV hh).2,
              (ceil_div_spec _ _ hdH hw).1, (ceil_div_spec _ _ hdH hw).2⟩, ?_, rfl, rfl⟩
            intro c cid hcid
            simp only [List.getElem?_map] at hcid
            match hsc : chans[c]? with
            | none => rw [hsc] at hcid; simp at hcid
            | some sc =>
              rw [hsc] at hcid
              simp only [Option.map_some', Option.some.injEq] at hcid
              obtain ⟨hlen, helem⟩ := buildCfgs_ok meta chans cfgs hcf
              obtain ⟨cm, hcm, hcfg⟩ := helem c sc hsc
              have hchans : (cfgs.map (fun cfg => (cfg, (0 : ℤ))))[c]? =
                  some (⟨sc.dc, sc.ac, cm.h, cm.v⟩, (0 : ℤ)) := by
                simp only [List.getElem?_map, hcfg, Option.map_some']
              have hmats0 : (cfgs.map (fun (_ : ChanCfg) => ([] : List (List ℤ))))[c]? =
                  some [] := by
                simp only [List.getElem?_map, hcfg, Option.map_some']
              have hlens : (cfgs.map (fun (_ : ChanCfg) => ([] : List (List ℤ)))).length =
                  (cfgs.map (fun cfg => (cfg, (0 : ℤ)))).length := by simp
              obtain ⟨mat, hmat, hmlen⟩ := readMCUs_ok _ _ _ _ _ _ hms hlens c
                ⟨sc.dc, sc.ac, cm.h, cm.v⟩ 0 [] hchans hmats0
              refine ⟨cm, mat, ?_, hmat, ?_⟩
              · rw [← hcid]; exact hcm
              · rw [hmlen]
                simp only [List.length_nil, Nat.zero_add]
                ring
  


theorem C2_block_counts_and_align_witness :
    ∃ (cm : ChannelMetadata) (mat : List (List ℤ)),
      GetMetaByChannelId meta1x1 1 = .ok cm ∧
      (⟨[[List.replicate 64 0]], [1], 1, 1⟩ : ImageData).channel_matrix[0]? = some mat ∧
      mat.length = (⟨[[List.replicate 64 0]], [1], 1, 1⟩ : ImageData).mcu_w *
        (⟨[[List.replicate 64 0]], [1], 1, 1⟩ : ImageData).mcu_h * cm.h * cm.v := by
  have h := C2_block_counts_and_align treesC4 meta1x1 ⟨sosBytes 0 63 0 ++ [0], 0, 0⟩
      ⟨[[List.replicate 64 0]], [1], 1, 1⟩ ⟨[], 0, 0⟩ (by decide) (by decide) (by decide)
  exact h.2.1 0 1 (by decide)

theorem replicate_getD (m n : ℕ) : (List.replicate m (0 : ℤ)).getD n 0 = 0 := by
  induction m generalizing n with
  | zero => simp [List.getD]
  | succ k ih =>
    match n with
    | 0 => simp [List.replicate]
    | n + 1 => simp [List.replicate]

theorem replicate_getD_lt (m n : ℕ) (x : ℤ) (h : n < m) :
    (List.replicate m x).getD n 0 = x := by
  induction m generalizing n with
  | zero => omega
  | succ k ih =>
    match n with
    | 0 => simp [List.replicate]
    | n + 1 => simp only [List.replicate, List.getD_cons_succ]; exact ih n (by omega)

theorem idctScaledInput_dc64_zero (k1 k2 : ℕ) (h : ¬(k1 = 0 ∧ k2 = 0)) :
    idctScaledInput dcBlock64 k1 k2 = 0 := by
  obtain ⟨n, hn⟩ : ∃ n, k1 * 8 + k2 = n + 1 := ⟨k1 * 8 + k2 - 1, by omega⟩
  unfold idctScaledInput dcBlock64
  rw [hn, List.getD_cons_succ, replicate_getD]
  simp

theorem idctScaledInput_dc64_at0 : idctScaledInput dcBlock64 0 0 = 8 := by
  unfold idctScaledInput dcBlock64
  simp
  rw [mul_assoc, Real.mul_self_sqrt (by norm_num)]
  norm_num

theorem redft01_2d_dc64 (j1 j2 : ℕ) :
    redft01_2d (idctScaledInput dcBlock64) j1 j2 = 8 := by
  unfold redft01_2d
  rw [Finset.sum_eq_single_of_mem 0 (by simp)]
  · rw [Finset.sum_eq_single_of_mem 0 (by simp)]
    · rw [idctScaledInput_dc64_at0]
      simp [redft01coef]
    · intro k2 _ hk2
      rw [idctScaledInput_dc64_zero 0 k2 (by simp [hk2])]
      ring
  · intro k1 _ hk1
    apply Finset.sum_eq_zero
    intro k2 _
    rw [idctScaledInput_dc64_zero k1 k2 (by simp [hk1])]
    ring

theorem IDCTblock_dc64 : IDCTblock (dcBlock64) = List.replicate 64 8 := by
  unfold IDCTblock
  rw [List.eq_replicate_iff]
  refine ⟨by simp, ?_⟩
  intro b hb
  simp only [List.mem_map, List.mem_range] at hb
  obtain ⟨i, -, rfl⟩ := hb
  rw [redft01_2d_dc64]
  norm_num [toInt16]

theorem decode_dc64_pipeline :
    decodeBlockPipeline dcBlock64 onesQuant = .ok (List.replicate 64 136) := by
  have hm : Mult dcBlock64 onesQuant = .ok dcBlock64 := by decide
  unfold decodeBlockPipeline
  rw [hm]
  show Except.ok ((IDCTblock dcBlock64).map rationing1) = _
  rw [IDCTblock_dc64]
  have hr : rationing1 8 = 136 := by decide
  simp [List.map_replicate, hr]

theorem grayPixel_136 : grayPixel 136 = (136, 136, 136) := by
  unfold grayPixel YCbCrToRGBref
  norm_num [clampRound, round_eq]

/-- **C8** is false as stated: the constant-DC-64 block under an all-ones
quantization table reconstructs to the uniform sample 8 (the spec's own
"uniform DC/8"), which level-shifts to 136 — every pixel is
RGB(136, 136, 136), not RGB(192, 192, 192). -/
theorem C8_counterexample_dc64_gives_136 :
    decodeBlockPipeline dcBlock64 onesQuant = .ok (List.replicate 64 136) ∧
    grayPixel 136 = (136, 136, 136) ∧ (136 : ℤ) ≠ 192 :=
  ⟨decode_dc64_pipeline, grayPixel_136, by decide⟩

/-- **C8 (amended)**: the dequantize → inverse-DCT (REDFT01 scaling) →
add-128-and-clamp pipeline maps the constant-DC-64 block with an all-ones
quantization table to the uniform sample value 136 at every position, and the
decoded grayscale pixel is RGB(136, 136, 136). -/
theorem C8_uniform_136 (i : ℕ) (hi : i < 64) :
    ∃ out, decodeBlockPipeline dcBlock64 onesQuant = .ok out ∧
      out.getD i 0 = 136 ∧ grayPixel (out.getD i 0) = (136, 136, 136) := by
  refine ⟨List.replicate 64 136, decode_dc64_pipeline, ?_, ?_⟩
  · exact replicate_getD_lt 64 i 136 hi
  · rw [replicate_getD_lt 64 i 136 hi]
    exact grayPixel_136

theorem C8_uniform_136_witness :
    (0 : ℕ) < 64 ∧
    ∃ out, decodeBlockPipeline dcBlock64 onesQuant = .ok out ∧
      out.getD 0 0 = 136 ∧ grayPixel (out.getD 0 0) = (136, 136, 136) :=
  ⟨by decide, C8_uniform_136 0 (by decide)⟩

end Jpeg
